import Mathlib

/-!
Verification of the `fetch` package (golangee/wasm-net, `fetch/http.go`).

The package is an asynchronous HTTP abstraction for a single-threaded wasm
host.  Its surface is four items:

* `GlobalPanicHandler` — a deferred recovery hook run at the end of every
  spawned goroutine; logs a recovered value together with a stack trace.
* `Request client req f` — spawns one goroutine that runs `client.Do(req)`,
  defers closing the response body when the call succeeded, and invokes the
  callback `f(res, err)` exactly once.
* `Get url f` — builds a GET request with a background context and no body;
  on construction failure invokes `f(nil, err)` synchronously, otherwise
  delegates to `Request` with the default client.
* `AsText` / `AsJSON` — middlewares adapting an inner callback to the
  `(response, error)` shape; they read the whole body and convert it to text
  respectively JSON-decode it into a caller-supplied target.

The shallow embedding below models Go byte slices and strings uniformly as
Lean `String`s (a Go string is exactly a byte sequence, and the code performs
no byte-level operation beyond the identity conversion `string(buf)`), Go's
`nil`-able errors as `Option GoError`, and a possibly-`nil` response pointer
as `Option Response`.  Side effects that the claims talk about (callback
invocations, body reads, body closes, log lines, panics) are made explicit as
instrumentation fields of the result values, recording exactly the effects
the straight-line Go code performs.
-/

namespace Fetch

/-- A Go `error` value (non-nil).  A nilable error is `Option GoError`. -/
structure GoError where
  msg : String
deriving DecidableEq, Repr

/-- The response body stream: its full content, and an optional failure that
`ioutil.ReadAll` reports instead of the content. -/
structure Body where
  content : String
  readErr : Option GoError
deriving DecidableEq, Repr

/-- `ioutil.ReadAll(body)`: returns the full content or the read error. -/
def readAll (b : Body) : Except GoError String :=
  match b.readErr with
  | some e => Except.error e
  | none => Except.ok b.content

/-- An `http.Response`; the claims only concern its body stream. -/
structure Response where
  body : Body
deriving DecidableEq, Repr

/-- A request context: `context.Background()` or some other caller context. -/
inductive Ctx where
  | background
  | custom (id : Nat)
deriving DecidableEq, Repr

/-- An `http.Request` as built by `NewRequestWithContext`. -/
structure HttpRequest where
  ctx : Ctx
  method : String
  url : String
  reqBody : Option String
deriving DecidableEq, Repr

/-- An `http.Client`, reduced to its `Do` method: a request goes to a pair
`(response, error)` of nilable values. -/
def Client : Type := HttpRequest → Option Response × Option GoError

/-- A Go runtime panic raised inside a callback. -/
inductive GoPanic where
  | nilPointerDereference
deriving DecidableEq, Repr

/-- The observable effects of one invocation of a `(response, error)`
callback, as seen by the dispatcher: how many times the callback closed the
response body, and the panic value it raised, if any. -/
structure CbResult where
  closes : Nat
  panicMsg : Option String
deriving DecidableEq, Repr

/-- The model of a `(response, error)` completion callback. -/
def ModelCb : Type := Option Response → Option GoError → CbResult

/-- Which component performed a close of the response body stream. -/
inductive Closer where
  | dispatcher
  | middleware
deriving DecidableEq, Repr

/-- Observable outcome of the `GlobalPanicHandler` hook: the log lines it
wrote, the panic it propagated out (if any), and whether it invoked the
completion callback. -/
structure HandlerResult where
  logs : List String
  reraised : Option String
  invokedCallback : Bool
deriving DecidableEq, Repr

/-- `GlobalPanicHandler` from `http.go`: `r := recover()`; if `r == nil`
return, else `log.Println(r, string(debug.Stack()))`.  It writes the single
log line and does nothing else: no re-raise, no callback. -/
def GlobalPanicHandler (recovered : Option String) (stack : String) : HandlerResult :=
  match recovered with
  | none => ⟨[], none, false⟩
  | some r => ⟨[r ++ " " ++ stack], none, false⟩

/-- The stack trace captured by `runtime/debug.Stack()` inside the spawned
goroutine; its content is runtime-dependent and opaque to the claims. -/
def debugStack : String := "goroutine 1 [running]: stack trace"

/-- Observable outcome of the goroutine spawned by `Request`: the arguments
of each completion-callback invocation in order, the body-close events in
order tagged by who performed them, and the log lines produced by the
deferred `GlobalPanicHandler`. -/
structure DispatchResult where
  cbArgs : List (Option Response × Option GoError)
  closes : List Closer
  logs : List String
deriving DecidableEq, Repr

/-- `Request` from `http.go`, flattened to the body of the goroutine it
spawns: `defer GlobalPanicHandler()`; `res, err := client.Do(request)`;
`if err == nil { defer res.Body.Close() }`; `f(res, err)`.  The deferred
close runs on every exit path of the goroutine (normal return or panic of
`f`), after any closes `f` itself performed, and the deferred handler runs
last, logging iff `f` panicked. -/
def Request (client : Client) (request : HttpRequest) (f : ModelCb) : DispatchResult :=
  match client request with
  | (res, err) =>
    let r := f res err
    { cbArgs := [(res, err)]
      closes := List.replicate r.closes Closer.middleware ++
        (match err with | some _ => [] | none => [Closer.dispatcher])
      logs := (GlobalPanicHandler r.panicMsg debugStack).logs }

/-- Observable outcome of `Get`: the callback invocations performed
synchronously on the calling thread, and the spawned goroutine's outcome when
one was spawned. -/
structure GetResult where
  syncCalls : List (Option Response × Option GoError)
  spawned : Option DispatchResult
deriving DecidableEq, Repr

/-- `http.NewRequestWithContext(ctx, method, url, body)`, the
request-construction capability of the net/http collaborator (it is not part
of this repository): URL validation is abstracted as the `parse` capability;
on success the request carries exactly the given context, method, URL and
body. -/
def NewRequestWithContext (parse : String → Option GoError) (ctx : Ctx)
    (method url : String) (body : Option String) : Except GoError HttpRequest :=
  match parse url with
  | some e => Except.error e
  | none => Except.ok ⟨ctx, method, url, body⟩

/-- `Get` from `http.go`: build the request with
`NewRequestWithContext(context.Background(), "GET", url, nil)`; on error call
`f(nil, err)` synchronously and return without spawning; otherwise delegate
to `Request(http.DefaultClient, req, f)`. -/
def Get (parse : String → Option GoError) (defaultClient : Client)
    (url : String) (f : ModelCb) : GetResult :=
  match NewRequestWithContext parse Ctx.background "GET" url none with
  | Except.error e => { syncCalls := [(none, some e)], spawned := none }
  | Except.ok req => { syncCalls := [], spawned := some (Request defaultClient req f) }

/-- Observable outcome of one invocation of the callback built by `AsText`:
the inner-callback invocations `(text, error)` in order, the number of
`ReadAll` attempts on the body, and the number of closes it performed. -/
structure TextCbRun where
  calls : List (String × Option GoError)
  bodyReads : Nat
  bodyCloses : Nat
deriving DecidableEq, Repr

/-- `AsText` from `http.go`, the wrapped callback applied to `(res, err)`:
if `err != nil` forward `("", err)`; else `buf, err := ReadAll(res.Body)`
(dereferencing `res`, a nil-pointer panic when `res == nil`); on read error
forward `("", err)`; else forward `(string(buf), nil)`. -/
def AsText (res : Option Response) (err : Option GoError) :
    Except GoPanic TextCbRun :=
  match err with
  | some e => Except.ok ⟨[("", some e)], 0, 0⟩
  | none =>
    match res with
    | none => Except.error GoPanic.nilPointerDereference
    | some r =>
      match readAll r.body with
      | Except.error e => Except.ok ⟨[("", some e)], 1, 0⟩
      | Except.ok buf => Except.ok ⟨[(buf, none)], 1, 0⟩

/-- Observable outcome of one invocation of the callback built by `AsJSON`:
the inner-callback invocations (an error each) in order, the final value of
the caller-supplied decode target, the number of `ReadAll` attempts, the
number of `json.Unmarshal` attempts, and the number of closes performed. -/
structure JsonCbRun (T : Type) where
  calls : List (Option GoError)
  target : T
  bodyReads : Nat
  decodeAttempts : Nat
  bodyCloses : Nat
deriving DecidableEq, Repr

/-- `AsJSON` from `http.go`, the wrapped callback applied to `(res, err)`,
generic over the decode target type and the `json.Unmarshal` collaborator
(`unmarshal buf v` returns the error and the possibly-updated target): if
`err != nil` forward `err`; else read the body (dereferencing `res`, a
nil-pointer panic when `res == nil`); on read error forward it; else
unmarshal into the target, forward the decode error or `nil`. -/
def AsJSON {T : Type} (unmarshal : String → T → Option GoError × T) (v : T)
    (res : Option Response) (err : Option GoError) :
    Except GoPanic (JsonCbRun T) :=
  match err with
  | some e => Except.ok ⟨[some e], v, 0, 0, 0⟩
  | none =>
    match res with
    | none => Except.error GoPanic.nilPointerDereference
    | some r =>
      match readAll r.body with
      | Except.error e => Except.ok ⟨[some e], v, 1, 0, 0⟩
      | Except.ok buf =>
        match unmarshal buf v with
        | (some e, v') => Except.ok ⟨[some e], v', 1, 1, 0⟩
        | (none, v') => Except.ok ⟨[none], v', 1, 1, 0⟩

/-- The opening-brace character, written by code point to keep it out of
character literals. -/
def lbrace : Char := Char.ofNat 123

/-- The closing-brace character, written by code point. -/
def rbrace : Char := Char.ofNat 125

/-- Skip JSON insignificant whitespace. -/
def skipWs : List Char → List Char
  | [] => []
  | c :: rest =>
    if c = ' ' ∨ c = '\t' ∨ c = '\n' ∨ c = '\r' then skipWs rest else c :: rest

/-- Consume characters up to an unescaped closing quote; returns the literal's
characters and the remainder after the quote. -/
def takeUntilQuote : List Char → Option (List Char × List Char)
  | [] => none
  | c :: rest =>
    if c = '"' then some ([], rest)
    else
      match takeUntilQuote rest with
      | some (s, r) => some (c :: s, r)
      | none => none

/-- Parse a JSON string literal (no escapes) at the head of the input. -/
def parseStr (cs : List Char) : Option (String × List Char) :=
  match cs with
  | [] => none
  | c :: rest =>
    if c = '"' then
      match takeUntilQuote rest with
      | some (s, r) => some (String.mk s, r)
      | none => none
    else none

/-- Parse the members `"k" : "v" (, "k" : "v")*` of a JSON object with string
values, up to and including the closing brace.  `fuel` bounds the number of
members. -/
def parseMembers : Nat → List Char → Option (List (String × String) × List Char)
  | 0, _ => none
  | fuel + 1, cs =>
    match parseStr cs with
    | none => none
    | some (k, cs1) =>
      match skipWs cs1 with
      | ':' :: cs2 =>
        match parseStr (skipWs cs2) with
        | none => none
        | some (val, cs3) =>
          match skipWs cs3 with
          | [] => none
          | c :: cs4 =>
            if c = ',' then
              match parseMembers fuel (skipWs cs4) with
              | some (ps, cs5) => some ((k, val) :: ps, cs5)
              | none => none
            else if c = rbrace then some ([(k, val)], cs4)
            else none
      | _ => none

/-- Parse a complete flat JSON object with string keys and string values;
`none` on any syntax error. -/
def parseObject (s : String) : Option (List (String × String)) :=
  match skipWs s.data with
  | [] => none
  | c :: cs =>
    if c = lbrace then
      match skipWs cs with
      | [] => none
      | d :: ds =>
        if d = rbrace then if (skipWs ds).isEmpty then some [] else none
        else
          match parseMembers (cs.length + 1) (skipWs cs) with
          | some (ps, rest) => if (skipWs rest).isEmpty then some ps else none
          | none => none
    else none

/-- The decode target of the `AsJSON` usage example in `http.go`:
`type MyType struct { SomeField string }`. -/
structure MyType where
  SomeField : String
deriving DecidableEq, Repr

/-- Go field assignment during JSON struct decoding: each parsed member whose
key names a struct field overwrites that field, in order; members with no
matching field are ignored; absent fields keep their prior value. -/
def assignMyType (v : MyType) : List (String × String) → MyType
  | [] => v
  | (k, val) :: rest =>
    assignMyType (if k = "SomeField" then { v with SomeField := val } else v) rest

/-- The syntax error `encoding/json` reports for input that is not JSON. -/
def jsonSyntaxError : GoError :=
  ⟨"invalid character looking for beginning of value"⟩

/-- `json.Unmarshal` of the net/http example program, restricted to the flat
string-field shape of `MyType`: the whole input is validated first and, when
invalid, the target is returned untouched with a syntax error — matching
`encoding/json`'s validate-then-decode behavior; on valid input the present
fields are assigned. -/
def unmarshalMyType (s : String) (v : MyType) : Option GoError × MyType :=
  match parseObject s with
  | none => (some jsonSyntaxError, v)
  | some ps => (none, assignMyType v ps)

/-- `AsText` as a dispatcher-level completion callback: it performs the body
closes `AsText` performs (none), and raises the nil-pointer panic on a nil
response with nil error. -/
def cbOfAsText : ModelCb := fun res err =>
  match AsText res err with
  | Except.ok run => ⟨run.bodyCloses, none⟩
  | Except.error _ =>
    ⟨0, some "runtime error: invalid memory address or nil pointer dereference"⟩

/-- A concrete successful response used in the close-ownership analysis. -/
def demoResponse : Response := ⟨⟨"hello world", none⟩⟩

/-- A client whose `Do` always succeeds with `demoResponse`. -/
def demoClient : Client := fun _ => (some demoResponse, none)

/-- A concrete well-formed GET request. -/
def demoRequest : HttpRequest := ⟨Ctx.background, "GET", "http://example.com", none⟩

/-- Every normal run of the `AsText` callback performs zero body closes: the
middleware reads the body but never calls `Close` on it. -/
theorem asText_bodyCloses_eq_zero (res : Option Response) (err : Option GoError)
    (run : TextCbRun) (h : AsText res err = Except.ok run) : run.bodyCloses = 0 := by
  obtain ⟨calls, reads, closes⟩ := run
  unfold AsText at h
  repeat' split at h
  all_goals simp_all
  all_goals omega

/-- Every normal run of the `AsJSON` callback performs zero body closes. -/
theorem asJSON_bodyCloses_eq_zero {T : Type} (u : String → T → Option GoError × T)
    (v : T) (res : Option Response) (err : Option GoError)
    (run : JsonCbRun T) (h : AsJSON u v res err = Except.ok run) : run.bodyCloses = 0 := by
  obtain ⟨calls, target, reads, decodes, closes⟩ := run
  unfold AsJSON at h
  repeat' split at h
  all_goals simp_all
  all_goals omega

/-- Claim C1: for every request dispatched through `Request` where the
client's `Do` returns a non-nil transport error (and, per the client
contract, a nil response), the completion callback is invoked exactly once,
with a nil response and exactly that error value, unmodified. -/
theorem c1_transport_error_passthrough (client : Client) (req : HttpRequest)
    (f : ModelCb) (e : GoError) (h : client req = (none, some e)) :
    (Request client req f).cbArgs = [(none, some e)] := by
  simp [Request, h]

/-- Witness for C1 at a concrete failing client. -/
theorem c1_witness :
    (Request (fun _ => (none, some ⟨"dial tcp: connection refused"⟩))
        demoRequest (fun _ _ => ⟨0, none⟩)).cbArgs =
      [(none, some ⟨"dial tcp: connection refused"⟩)] :=
  c1_transport_error_passthrough _ demoRequest _ ⟨"dial tcp: connection refused"⟩ rfl

/-- Claim C2: when GET request construction fails, `Get` invokes the callback
synchronously on the calling thread with a nil response and the construction
error and spawns no concurrent unit; when construction succeeds, `Get` builds
a GET request with no body and a background context and delegates it to
`Request` with the default client. -/
theorem c2_get_construction (parse : String → Option GoError)
    (defaultClient : Client) (url : String) (f : ModelCb) :
    (∀ e, parse url = some e →
      Get parse defaultClient url f = ⟨[(none, some e)], none⟩) ∧
    (parse url = none →
      Get parse defaultClient url f =
        ⟨[], some (Request defaultClient ⟨Ctx.background, "GET", url, none⟩ f)⟩) := by
  constructor
  · intro e he
    simp [Get, NewRequestWithContext, he]
  · intro hn
    simp [Get, NewRequestWithContext, hn]

/-- Witness for C2: a parse failure path and a construction success path. -/
theorem c2_witness :
    Get (fun _ => some ⟨"missing protocol scheme"⟩) demoClient "://bad"
        (fun _ _ => ⟨0, none⟩) =
      ⟨[(none, some ⟨"missing protocol scheme"⟩)], none⟩ ∧
    Get (fun _ => none) demoClient "http://example.com" (fun _ _ => ⟨0, none⟩) =
      ⟨[], some (Request demoClient
        ⟨Ctx.background, "GET", "http://example.com", none⟩ (fun _ _ => ⟨0, none⟩))⟩ :=
  ⟨(c2_get_construction (fun _ => some ⟨"missing protocol scheme"⟩) demoClient
      "://bad" (fun _ _ => ⟨0, none⟩)).1 ⟨"missing protocol scheme"⟩ rfl,
   (c2_get_construction (fun _ => none) demoClient
      "http://example.com" (fun _ _ => ⟨0, none⟩)).2 rfl⟩

/-- Counterexample to C3: at input (nil response, nil error) the `AsText`
callback panics on the nil-pointer dereference and never invokes its inner
callback, so it does not invoke it exactly once for every input. -/
theorem c3_counterexample :
    ¬ ∃ run, AsText none none = Except.ok run ∧ run.calls.length = 1 := by
  rintro ⟨run, h, _⟩
  simp [AsText] at h

/-- Claim C3 (amended with the precondition that a nil error comes with a
non-nil response, the invariant the dispatcher establishes): the `AsText`
callback invokes its inner callback exactly once; when the upstream error is
nil and the body reads successfully it forwards the full body as text with a
nil error. -/
theorem c3_asText_once_and_roundtrip (res : Option Response) (err : Option GoError)
    (h : err = none → res ≠ none) :
    (∃ run, AsText res err = Except.ok run ∧ run.calls.length = 1) ∧
    (∀ r, res = some r → err = none → r.body.readErr = none →
      AsText res err = Except.ok ⟨[(r.body.content, none)], 1, 0⟩) := by
  constructor
  · cases err with
    | some e => exact ⟨⟨[("", some e)], 0, 0⟩, rfl, rfl⟩
    | none =>
      cases res with
      | none => exact absurd rfl (h rfl)
      | some r =>
        cases hre : r.body.readErr with
        | some e =>
          exact ⟨⟨[("", some e)], 1, 0⟩, by simp [AsText, readAll, hre], rfl⟩
        | none =>
          exact ⟨⟨[(r.body.content, none)], 1, 0⟩, by simp [AsText, readAll, hre], rfl⟩
  · rintro r rfl rfl hre
    simp [AsText, readAll, hre]

/-- Witness for C3: the "hello world" round trip delivers ("hello world", nil). -/
theorem c3_witness :
    AsText (some ⟨⟨"hello world", none⟩⟩) none =
      Except.ok ⟨[("hello world", none)], 1, 0⟩ :=
  (c3_asText_once_and_roundtrip (some ⟨⟨"hello world", none⟩⟩) none
    (by simp)).2 ⟨⟨"hello world", none⟩⟩ rfl rfl rfl

/-- Claim C4: when the upstream error is non-nil, `AsText` forwards
`("", error)` with zero body reads and zero closes, with a result independent
of the response; when reading the body fails, it forwards `("", readError)`. -/
theorem c4_asText_error_paths (e : GoError) :
    (∀ res : Option Response, AsText res (some e) = Except.ok ⟨[("", some e)], 0, 0⟩) ∧
    (∀ (r : Response) (re : GoError), r.body.readErr = some re →
      AsText (some r) none = Except.ok ⟨[("", some re)], 1, 0⟩) := by
  constructor
  · intro res
    rfl
  · intro r re hre
    simp [AsText, readAll, hre]

/-- Witness for C4: an upstream error forwarded untouched, and a body-read
failure forwarded. -/
theorem c4_witness :
    AsText none (some ⟨"EOF"⟩) = Except.ok ⟨[("", some ⟨"EOF"⟩)], 0, 0⟩ ∧
    AsText (some ⟨⟨"", some ⟨"unexpected EOF"⟩⟩⟩) none =
      Except.ok ⟨[("", some ⟨"unexpected EOF"⟩)], 1, 0⟩ :=
  ⟨(c4_asText_error_paths ⟨"EOF"⟩).1 none,
   (c4_asText_error_paths ⟨"EOF"⟩).2 ⟨⟨"", some ⟨"unexpected EOF"⟩⟩⟩
     ⟨"unexpected EOF"⟩ rfl⟩

/-- Counterexample to C5: at input (nil response, nil error) the `AsJSON`
callback panics on the nil-pointer dereference and never invokes its inner
callback, so it does not invoke it exactly once for every input. -/
theorem c5_counterexample :
    ¬ ∃ run, AsJSON unmarshalMyType ⟨""⟩ none none = Except.ok run ∧
      run.calls.length = 1 := by
  rintro ⟨run, h, _⟩
  simp [AsJSON] at h

/-- Claim C5 (amended with the precondition that a nil error comes with a
non-nil response): the `AsJSON` callback invokes its inner callback exactly
once, with the upstream error, the read error, or the unmarshal outcome
(decode error, or nil with the target populated by the unmarshaller). -/
theorem c5_asJSON_once_and_outcomes {T : Type}
    (unmarshal : String → T → Option GoError × T) (v : T)
    (res : Option Response) (err : Option GoError) (h : err = none → res ≠ none) :
    (∃ run, AsJSON unmarshal v res err = Except.ok run ∧ run.calls.length = 1) ∧
    (∀ e, err = some e →
      AsJSON unmarshal v res err = Except.ok ⟨[some e], v, 0, 0, 0⟩) ∧
    (∀ r, res = some r → err = none →
      (∀ e, r.body.readErr = some e →
        AsJSON unmarshal v res err = Except.ok ⟨[some e], v, 1, 0, 0⟩) ∧
      (r.body.readErr = none →
        AsJSON unmarshal v res err = Except.ok
          ⟨[(unmarshal r.body.content v).1], (unmarshal r.body.content v).2, 1, 1, 0⟩)) := by
  refine ⟨?_, ?_, ?_⟩
  · cases err with
    | some e => exact ⟨⟨[some e], v, 0, 0, 0⟩, rfl, rfl⟩
    | none =>
      cases res with
      | none => exact absurd rfl (h rfl)
      | some r =>
        cases hre : r.body.readErr with
        | some e =>
          exact ⟨⟨[some e], v, 1, 0, 0⟩, by simp [AsJSON, readAll, hre], rfl⟩
        | none =>
          rcases hu : unmarshal r.body.content v with ⟨oe, w⟩
          cases oe with
          | some e =>
            exact ⟨⟨[some e], w, 1, 1, 0⟩, by simp [AsJSON, readAll, hre, hu], rfl⟩
          | none =>
            exact ⟨⟨[none], w, 1, 1, 0⟩, by simp [AsJSON, readAll, hre, hu], rfl⟩
  · rintro e rfl
    rfl
  · rintro r rfl rfl
    refine ⟨?_, ?_⟩
    · intro e hre
      simp [AsJSON, readAll, hre]
    · intro hre
      rcases hu : unmarshal r.body.content v with ⟨oe, w⟩
      cases oe <;> simp [AsJSON, readAll, hre, hu]

/-- Witness for C5: the JSON round trip on body `{"SomeField":"x"}` delivers
nil and leaves the target's `SomeField` equal to "x". -/
theorem c5_witness :
    AsJSON unmarshalMyType ⟨"old"⟩
        (some ⟨⟨"\x7b\"SomeField\":\"x\"\x7d", none⟩⟩) none =
      Except.ok ⟨[none], ⟨"x"⟩, 1, 1, 0⟩ :=
  (c5_asJSON_once_and_outcomes unmarshalMyType ⟨"old"⟩
      (some ⟨⟨"\x7b\"SomeField\":\"x\"\x7d", none⟩⟩) none (by simp)).2.2
    ⟨⟨"\x7b\"SomeField\":\"x\"\x7d", none⟩⟩ rfl rfl |>.2 rfl

/-- Counterexample to C6: on a successful request whose body is consumed by
the `AsText` middleware, the middleware reads the body (one read, zero
closes) yet the single close event is performed by the dispatcher's deferred
close — not by the decoder middleware, as the claim requires. -/
theorem c6_counterexample :
    AsText (some demoResponse) none = Except.ok ⟨[("hello world", none)], 1, 0⟩ ∧
    (Request demoClient demoRequest cbOfAsText).closes = [Closer.dispatcher] :=
  ⟨rfl, rfl⟩

/-- Claim C6 (amended: the body stream is closed exactly once, on whichever
exit path of the spawned unit is reached — including a panicking callback —
but always by the Dispatcher's deferred close; the decoder middlewares read
the body yet never close it). -/
theorem c6_close_exactly_once (client : Client) (req : HttpRequest) (f : ModelCb)
    (res0 : Option Response) (hc : client req = (res0, none))
    (hf : (f res0 none).closes = 0) :
    (Request client req f).closes = [Closer.dispatcher] ∧
    (∀ res err run, AsText res err = Except.ok run → run.bodyCloses = 0) ∧
    (∀ (T : Type) (u : String → T → Option GoError × T) (v : T) res err run,
      AsJSON u v res err = Except.ok run → run.bodyCloses = 0) := by
  refine ⟨?_, ?_, ?_⟩
  · simp [Request, hc, hf]
  · intro res err run h
    exact asText_bodyCloses_eq_zero res err run h
  · intro T u v res err run h
    exact asJSON_bodyCloses_eq_zero u v res err run h

/-- Witness for C6 at the concrete successful request with `AsText`. -/
theorem c6_witness :
    (Request demoClient demoRequest cbOfAsText).closes = [Closer.dispatcher] :=
  (c6_close_exactly_once demoClient demoRequest cbOfAsText
    (some demoResponse) rfl rfl).1

/-- Claim C7: when the spawned unit terminated normally (nothing recovered),
`GlobalPanicHandler` is a no-op with no log output; when it terminated
abnormally, the handler writes exactly one diagnostic — the triggering value
plus the captured stack trace — never re-raises, and never invokes the
completion callback. -/
theorem c7_panic_handler (recovered : Option String) (stack : String) :
    (recovered = none → GlobalPanicHandler recovered stack = ⟨[], none, false⟩) ∧
    (∀ v, recovered = some v →
      GlobalPanicHandler recovered stack = ⟨[v ++ " " ++ stack], none, false⟩ ∧
      (GlobalPanicHandler recovered stack).logs.length = 1) := by
  constructor
  · rintro rfl
    rfl
  · rintro v rfl
    exact ⟨rfl, rfl⟩

/-- Witness for C7: the no-op path and the diagnostic path at concrete inputs. -/
theorem c7_witness :
    GlobalPanicHandler none debugStack = ⟨[], none, false⟩ ∧
    GlobalPanicHandler (some "runtime error: index out of range") debugStack =
      ⟨["runtime error: index out of range" ++ " " ++ debugStack], none, false⟩ :=
  ⟨(c7_panic_handler none debugStack).1 rfl,
   ((c7_panic_handler (some "runtime error: index out of range") debugStack).2
     "runtime error: index out of range" rfl).1⟩

/-- Claim C8: on the body "not-json" the `AsJSON` callback delivers a non-nil
(syntax) error to its inner callback and returns the caller-supplied decode
target unchanged, whatever its already-set fields are. -/
theorem c8_asJSON_invalid_json (v : MyType) :
    AsJSON unmarshalMyType v (some ⟨⟨"not-json", none⟩⟩) none =
      Except.ok ⟨[some jsonSyntaxError], v, 1, 1, 0⟩ := by
  have hp : parseObject "not-json" = none := by decide
  simp [AsJSON, readAll, unmarshalMyType, hp]

/-- Claim C9: when the upstream error is non-nil, or reading the body fails,
the `AsJSON` callback leaves the decode target completely unchanged and never
attempts JSON decoding (zero decode attempts). -/
theorem c9_asJSON_no_decode_on_error {T : Type}
    (unmarshal : String → T → Option GoError × T) (v : T)
    (res : Option Response) (e : GoError) :
    (AsJSON unmarshal v res (some e) = Except.ok ⟨[some e], v, 0, 0, 0⟩) ∧
    (∀ r, res = some r → r.body.readErr = some e →
      AsJSON unmarshal v res none = Except.ok ⟨[some e], v, 1, 0, 0⟩) := by
  constructor
  · rfl
  · rintro r rfl hre
    simp [AsJSON, readAll, hre]

/-- Witness for C9: an upstream error and a read failure, each leaving the
target untouched with zero decode attempts. -/
theorem c9_witness :
    AsJSON unmarshalMyType ⟨"prior"⟩ none (some ⟨"context canceled"⟩) =
      Except.ok ⟨[some ⟨"context canceled"⟩], ⟨"prior"⟩, 0, 0, 0⟩ ∧
    AsJSON unmarshalMyType ⟨"prior"⟩ (some ⟨⟨"", some ⟨"unexpected EOF"⟩⟩⟩) none =
      Except.ok ⟨[some ⟨"unexpected EOF"⟩], ⟨"prior"⟩, 1, 0, 0⟩ :=
  ⟨(c9_asJSON_no_decode_on_error unmarshalMyType ⟨"prior"⟩ none
      ⟨"context canceled"⟩).1,
   (c9_asJSON_no_decode_on_error unmarshalMyType ⟨"prior"⟩
      (some ⟨⟨"", some ⟨"unexpected EOF"⟩⟩⟩) ⟨"unexpected EOF"⟩).2
     ⟨⟨"", some ⟨"unexpected EOF"⟩⟩⟩ rfl rfl⟩

/-- Claim C10: the callbacks built by `AsText` and `AsJSON` dereference the
response whenever the upstream error is nil: invoking either with
(nil response, nil error) raises the nil-pointer panic instead of reporting
an error, and both are total (no panic) exactly under the precondition that a
nil error implies a non-nil response. -/
theorem c10_nil_response_panics :
    AsText none none = Except.error GoPanic.nilPointerDereference ∧
    (∀ (T : Type) (u : String → T → Option GoError × T) (v : T),
      AsJSON u v none none = Except.error GoPanic.nilPointerDereference) ∧
    (∀ (res : Option Response) (err : Option GoError), (err = none → res ≠ none) →
      (∃ run, AsText res err = Except.ok run) ∧
      (∀ (T : Type) (u : String → T → Option GoError × T) (v : T),
        ∃ run, AsJSON u v res err = Except.ok run)) := by
  refine ⟨rfl, fun T u v => rfl, ?_⟩
  intro res err h
  constructor
  · cases err with
    | some e => exact ⟨⟨[("", some e)], 0, 0⟩, rfl⟩
    | none =>
      cases res with
      | none => exact absurd rfl (h rfl)
      | some r =>
        cases hre : r.body.readErr with
        | some e => exact ⟨⟨[("", some e)], 1, 0⟩, by simp [AsText, readAll, hre]⟩
        | none =>
          exact ⟨⟨[(r.body.content, none)], 1, 0⟩, by simp [AsText, readAll, hre]⟩
  · intro T u v
    cases err with
    | some e => exact ⟨⟨[some e], v, 0, 0, 0⟩, rfl⟩
    | none =>
      cases res with
      | none => exact absurd rfl (h rfl)
      | some r =>
        cases hre : r.body.readErr with
        | some e => exact ⟨⟨[some e], v, 1, 0, 0⟩, by simp [AsJSON, readAll, hre]⟩
        | none =>
          rcases hu : u r.body.content v with ⟨oe, w⟩
          cases oe with
          | some e => exact ⟨⟨[some e], w, 1, 1, 0⟩, by simp [AsJSON, readAll, hre, hu]⟩
          | none => exact ⟨⟨[none], w, 1, 1, 0⟩, by simp [AsJSON, readAll, hre, hu]⟩

/-- Witness for C10: totality holds at a concrete in-contract input. -/
theorem c10_witness :
    ∃ run, AsText (some demoResponse) none = Except.ok run :=
  (c10_nil_response_panics.2.2 (some demoResponse) none (by simp)).1

end Fetch
